import Mathlib

/-!
Verification development for the inventory-and-ordering service
(`src/main.py`, `src/models.py`).

The service is a FastAPI application over a relational store with three
tables: products, orders, order_items.  Every request handler runs inside
one request-scoped session; the session is committed at the end of the
handler, and when the handler raises (HTTPException) the session is
discarded without commit, so the durable state is unchanged on error.

Shallow embedding choices:
  * The durable store is a `DB` record holding the three tables as lists,
    in insertion order, together with the next auto-assigned primary keys.
  * `db.get(Model, id)` (primary-key lookup) is embedded as a first-match
    scan (`getProduct`, `getOrder`); primary keys are unique in the real
    store, so first-match agrees with it.
  * Machine integers: SQL `Integer` columns and Python ints are unbounded
    in this code path, so `stock` and `quantity` are `Int`.  `quantity`
    comes from `OrderCreate.items : list[dict]`, which Pydantic does not
    constrain, so any integer (negative included) reaches the handler.
  * `price : Column(Float)` is only ever stored and copied verbatim, never
    computed with, so its carrier is taken to be `Int`; no claim concerns
    the numeric behaviour of `price`.
  * Timestamps (`created_at = datetime.datetime.utcnow`) are an abstract
    server-supplied value, embedded as a `Nat` parameter `now`.
  * A handler that raises is embedded as `Except ApiError`; the
    request-level state transition applies the returned state only on
    `.ok` (functions `orderStateAfter`, `productStateAfter`), which is the
    commit/rollback discipline of the request-scoped session.
  * Pydantic request validation for `ProductCreate` (all four fields are
    declared without defaults, hence required) is embedded by
    `parseProductCreate` over a raw record of optional fields, and the
    enum validation of `OrderStatusUpdate.status : OrderStatus` by
    `statusOfString` over the three enum member values from `models.py`.
-/

namespace InventoryAPI

/-- `OrderStatus` from `models.py`: a three-member string enum. -/
inductive OrderStatus where
  | processing
  | sent
  | delivered
deriving DecidableEq, Repr

/-- The string value carried by each enum member in `models.py`. -/
def OrderStatus.value : OrderStatus → String
  | .processing => "в процессе"
  | .sent => "отправлен"
  | .delivered => "доставлен"

/-- Pydantic validation of `status: OrderStatus` in `OrderStatusUpdate`:
a string is accepted exactly when it is the value of one of the three
enum members. -/
def statusOfString (s : String) : Option OrderStatus :=
  if s = "в процессе" then some .processing
  else if s = "отправлен" then some .sent
  else if s = "доставлен" then some .delivered
  else none

/-- `Product` row from `models.py`. -/
structure Product where
  id : Nat
  name : String
  description : String
  price : Int
  stock : Int
deriving DecidableEq, Repr

/-- `Order` row from `models.py`; `created_at` is a server timestamp,
`status` defaults to `processing`. -/
structure Order where
  id : Nat
  createdAt : Nat
  status : OrderStatus
deriving DecidableEq, Repr

/-- `OrderItem` row from `models.py`: one line of an order. -/
structure OrderItem where
  id : Nat
  orderId : Nat
  productId : Nat
  quantity : Int
deriving DecidableEq, Repr

/-- The durable store: the three tables, in insertion order, plus the
next auto-assigned primary key of each table. -/
structure DB where
  products : List Product
  orders : List Order
  orderItems : List OrderItem
  nextProductId : Nat
  nextOrderId : Nat
  nextOrderItemId : Nat
deriving DecidableEq, Repr

/-- Errors a handler surfaces: `HTTPException(404, d)`,
`HTTPException(400, d)`, and a Pydantic request-validation failure
(FastAPI status 422). -/
inductive ApiError where
  | notFound (detail : String)
  | badRequest (detail : String)
  | invalidRequestBody
deriving DecidableEq, Repr

/-- `await db.get(Product, pid)`: primary-key lookup, first match. -/
def getProduct : List Product → Nat → Option Product
  | [], _ => none
  | p :: ps, pid => if p.id = pid then some p else getProduct ps pid

/-- `await db.get(Order, oid)`: primary-key lookup, first match. -/
def getOrder : List Order → Nat → Option Order
  | [], _ => none
  | o :: os, oid => if o.id = oid then some o else getOrder os oid

/-- The `ProductCreate` Pydantic schema of `main.py`: name, description,
price, stock, every field declared without a default. -/
structure ProductCreate where
  name : String
  description : String
  price : Int
  stock : Int
deriving DecidableEq, Repr

/-- A raw request body for the product endpoints: each field of
`ProductCreate` may be present or absent. -/
structure RawProductCreate where
  name : Option String
  description : Option String
  price : Option Int
  stock : Option Int
deriving DecidableEq, Repr

/-- Pydantic validation of `ProductCreate`: all four fields are required
(none has a default in `main.py`), so a missing field rejects the body. -/
def parseProductCreate (raw : RawProductCreate) : Except ApiError ProductCreate :=
  match raw.name, raw.description, raw.price, raw.stock with
  | some n, some d, some pr, some st => .ok ⟨n, d, pr, st⟩
  | _, _, _, _ => .error .invalidRequestBody

/-- `create_product`: insert a new `Product` built from the validated
body, with a server-assigned primary key; return the refreshed row. -/
def createProduct (db : DB) (pc : ProductCreate) : DB × Product :=
  let p : Product := ⟨db.nextProductId, pc.name, pc.description, pc.price, pc.stock⟩
  ({ db with products := db.products ++ [p], nextProductId := db.nextProductId + 1 }, p)

/-- The POST /products endpoint: Pydantic validation, then `create_product`. -/
def createProductEndpoint (db : DB) (raw : RawProductCreate) : Except ApiError (DB × Product) :=
  (parseProductCreate raw).map (createProduct db)

/-- The `setattr` loop of `update_product`: overwrite all four fields of
the first row whose primary key matches. -/
def setProductFields (ps : List Product) (pid : Nat) (pc : ProductCreate) : List Product :=
  match ps with
  | [] => []
  | p :: rest =>
    if p.id = pid then
      { p with
        name := pc.name
        description := pc.description
        price := pc.price
        stock := pc.stock } :: rest
    else p :: setProductFields rest pid pc

/-- `update_product`: 404 when the id resolves to no product, otherwise
overwrite all four fields and return the refreshed row. -/
def updateProduct (db : DB) (pid : Nat) (pc : ProductCreate) : Except ApiError (DB × Product) :=
  match getProduct db.products pid with
  | none => .error (.notFound "Product not found")
  | some p =>
    .ok ({ db with products := setProductFields db.products pid pc },
         { p with
           name := pc.name
           description := pc.description
           price := pc.price
           stock := pc.stock })

/-- The durable state after a PUT /products/{id} request: the new state
on commit, the old state when the handler raised (session discarded). -/
def productStateAfter (db : DB) (pid : Nat) (pc : ProductCreate) : DB :=
  match updateProduct db pid pc with
  | .ok (db2, _) => db2
  | .error _ => db

/-- One entry of `OrderCreate.items`: `\x7b"product_id": ..., "quantity": ...\x7d`. -/
structure ItemReq where
  productId : Nat
  quantity : Int
deriving DecidableEq, Repr

/-- The single error class of `create_order`:
`HTTPException(status_code=400, detail="Insufficient stock")`. -/
def insufficientStock : ApiError := .badRequest "Insufficient stock"

/-- One iteration of the item loop of `create_order`, up to the mutation:
load the product; raise the single 400 error when it is absent or its
current stock is below the requested quantity. -/
def checkItem (ps : List Product) (it : ItemReq) : Except ApiError Product :=
  match getProduct ps it.productId with
  | none => .error insufficientStock
  | some p => if p.stock < it.quantity then .error insufficientStock else .ok p

/-- `product.stock -= item["quantity"]` on the session: decrement the
stock of the first row whose primary key matches. -/
def decStock (ps : List Product) (pid : Nat) (q : Int) : List Product :=
  match ps with
  | [] => []
  | p :: rest =>
    if p.id = pid then { p with stock := p.stock - q } :: rest
    else p :: decStock rest pid q

/-- The item loop of `create_order` over the session state: for each item
in caller order, check against the current (already decremented) stock,
decrement, and record an `OrderItem`; the first failing check aborts the
whole loop.  Returns the mutated products, the new order items, and the
next order-item primary key. -/
def applyItems (oid : Nat) :
    List Product → Nat → List ItemReq → Except ApiError (List Product × List OrderItem × Nat)
  | ps, nid, [] => .ok (ps, [], nid)
  | ps, nid, it :: rest =>
    match checkItem ps it with
    | .error e => .error e
    | .ok _ =>
      match applyItems oid (decStock ps it.productId it.quantity) (nid + 1) rest with
      | .error e => .error e
      | .ok (ps2, its, nid2) => .ok (ps2, ⟨nid, oid, it.productId, it.quantity⟩ :: its, nid2)

/-- `create_order`: open a new `Order` with default status and server
timestamp, run the item loop, and commit everything as one unit; any
failure raises before commit, so no state is produced. -/
def createOrder (now : Nat) (db : DB) (items : List ItemReq) : Except ApiError (DB × Order) :=
  let order : Order := ⟨db.nextOrderId, now, .processing⟩
  match applyItems order.id db.products db.nextOrderItemId items with
  | .error e => .error e
  | .ok (ps2, its, nid2) =>
    .ok ({ db with
           products := ps2
           orders := db.orders ++ [order]
           orderItems := db.orderItems ++ its
           nextOrderId := db.nextOrderId + 1
           nextOrderItemId := nid2 }, order)

/-- The durable state after a POST /orders request: the new state on
commit, the old state when the handler raised (session discarded). -/
def orderStateAfter (now : Nat) (db : DB) (items : List ItemReq) : DB :=
  match createOrder now db items with
  | .ok (db2, _) => db2
  | .error _ => db

/-- `order.status = status_data.status` on the session: set the status of
the first row whose primary key matches. -/
def setStatus (os : List Order) (oid : Nat) (st : OrderStatus) : List Order :=
  match os with
  | [] => []
  | o :: rest =>
    if o.id = oid then { o with status := st } :: rest
    else o :: setStatus rest oid st

/-- `update_order_status`: 404 when the id resolves to no order,
otherwise overwrite the status and return the refreshed row. -/
def updateOrderStatus (db : DB) (oid : Nat) (st : OrderStatus) : Except ApiError (DB × Order) :=
  match getOrder db.orders oid with
  | none => .error (.notFound "Order not found")
  | some o => .ok ({ db with orders := setStatus db.orders oid st }, { o with status := st })

/-- Total quantity requested for one product by a list of items. -/
def sumQty : List ItemReq → Nat → Int
  | [], _ => 0
  | it :: rest, pid => (if it.productId = pid then it.quantity else 0) + sumQty rest pid

/-- The order items belonging to one order. -/
def itemsOf (its : List OrderItem) (oid : Nat) : List OrderItem :=
  its.filter (fun it => it.orderId == oid)

/-- The session products relate to the initial products by a per-product
quantity already deducted: the running state of the item loop. -/
def tracks (ps0 : List Product) (f : Nat → Int) (ps : List Product) : Prop :=
  ∀ pid, getProduct ps pid = (getProduct ps0 pid).map (fun p => { p with stock := p.stock - f pid })

/-- Add a deducted quantity for one product to the deduction function. -/
def bump (f : Nat → Int) (pid : Nat) (q : Int) : Nat → Int :=
  fun x => if x = pid then f x + q else f x

/-- An empty store. -/
def emptyDB : DB := ⟨[], [], [], 1, 1, 1⟩

/-- A store with a single product, id 1, stock 5. -/
def dbStock5 : DB := ⟨[⟨1, "Widget", "A widget", 999, 5⟩], [], [], 2, 1, 1⟩

/-- A store with a single product, id 1, stock 2. -/
def dbStock2 : DB := ⟨[⟨1, "Widget", "A widget", 999, 2⟩], [], [], 2, 1, 1⟩

/-- A store with two products, ids 1 and 2, stocks 5 and 4. -/
def dbTwo : DB :=
  ⟨[⟨1, "Widget", "A widget", 999, 5⟩, ⟨2, "Gadget", "A gadget", 500, 4⟩], [], [], 3, 1, 1⟩

/-- A store with a single order, id 1, status processing. -/
def dbOneOrder : DB := ⟨[], [⟨1, 0, .processing⟩], [], 1, 2, 1⟩

/-- A product body missing the stock field. -/
def rawNoStock : RawProductCreate := ⟨some "Widget", some "A widget", some 999, none⟩

/-- A complete product body. -/
def rawFull : RawProductCreate := ⟨some "Widget", some "A widget", some 999, some 3⟩

end InventoryAPI

namespace InventoryAPI

theorem getProduct_decStock_ne (ps : List Product) (pid : Nat) (q : Int) (pid2 : Nat)
    (h : pid2 ≠ pid) : getProduct (decStock ps pid q) pid2 = getProduct ps pid2 := by
  induction ps with
  | nil => rfl
  | cons p rest ih =>
    by_cases hp : p.id = pid
    · have hp2 : p.id ≠ pid2 := by rw [hp]; exact fun hc => h hc.symm
      simp [decStock, getProduct, hp, hp2, h, Ne.symm h]
    · by_cases hq : p.id = pid2 <;> simp [decStock, getProduct, hp, hq, ih, h, Ne.symm h]

theorem getProduct_decStock_eq (ps : List Product) (pid : Nat) (q : Int) :
    getProduct (decStock ps pid q) pid
      = (getProduct ps pid).map (fun p => { p with stock := p.stock - q }) := by
  induction ps with
  | nil => rfl
  | cons p rest ih =>
    by_cases hp : p.id = pid <;> simp [decStock, getProduct, hp, ih]

theorem getProduct_setProductFields_ne (ps : List Product) (pid : Nat) (pc : ProductCreate)
    (pid2 : Nat) (h : pid2 ≠ pid) :
    getProduct (setProductFields ps pid pc) pid2 = getProduct ps pid2 := by
  induction ps with
  | nil => rfl
  | cons p rest ih =>
    by_cases hp : p.id = pid
    · have hp2 : p.id ≠ pid2 := by rw [hp]; exact fun hc => h hc.symm
      simp [setProductFields, getProduct, hp, hp2, h, Ne.symm h]
    · by_cases hq : p.id = pid2 <;> simp [setProductFields, getProduct, hp, hq, ih, h, Ne.symm h]

theorem getProduct_setProductFields_eq (ps : List Product) (pid : Nat) (pc : ProductCreate) :
    getProduct (setProductFields ps pid pc) pid
      = (getProduct ps pid).map
          (fun p => ⟨p.id, pc.name, pc.description, pc.price, pc.stock⟩) := by
  induction ps with
  | nil => rfl
  | cons p rest ih =>
    by_cases hp : p.id = pid <;> simp [setProductFields, getProduct, hp, ih]

theorem setStatus_get (oid : Nat) (st : OrderStatus) :
    ∀ (os : List Order) (i : Nat) (o1 : Order), os[i]? = some o1 →
      ∃ o2, (setStatus os oid st)[i]? = some o2 ∧ o2.id = o1.id ∧
        o2.createdAt = o1.createdAt ∧ (o1.id ≠ oid → o2 = o1) := by
  intro os
  induction os with
  | nil => intro i o1 h; simp at h
  | cons o rest ih =>
    intro i o1 h
    cases i with
    | zero =>
      simp only [List.getElem?_cons_zero, Option.some.injEq] at h
      subst h
      by_cases ho : o.id = oid
      · exact ⟨{ o with status := st }, by simp [setStatus, ho], rfl, rfl,
          fun hc => absurd ho hc⟩
      · exact ⟨o, by simp [setStatus, ho], rfl, rfl, fun _ => rfl⟩
    | succ j =>
      simp only [List.getElem?_cons_succ] at h
      by_cases ho : o.id = oid
      · exact ⟨o1, by simp [setStatus, ho, h], rfl, rfl, fun _ => rfl⟩
      · obtain ⟨o2, h1, h2, h3, h4⟩ := ih j o1 h
        exact ⟨o2, by simp [setStatus, ho, h1], h2, h3, h4⟩

/-- C3: inside order creation, processing one item fails exactly when the
referenced product is absent or its current stock is strictly below the
requested quantity, and every failure carries the one error
`HTTPException(400, "Insufficient stock")` — the two causes are
indistinguishable to the caller. -/
theorem c3_insufficient_stock_iff (ps : List Product) (it : ItemReq) :
    (checkItem ps it = .error insufficientStock ↔
      getProduct ps it.productId = none ∨
        ∃ p, getProduct ps it.productId = some p ∧ p.stock < it.quantity) ∧
    (∀ e, checkItem ps it = .error e → e = insufficientStock) := by
  unfold checkItem
  cases hg : getProduct ps it.productId with
  | none => simp
  | some p =>
    by_cases hs : p.stock < it.quantity <;> simp [hs]

theorem c3_witness :
    checkItem dbStock5.products ⟨1, 10⟩ = .error insufficientStock :=
  (c3_insufficient_stock_iff dbStock5.products ⟨1, 10⟩).1.mpr
    (Or.inr ⟨⟨1, "Widget", "A widget", 999, 5⟩, rfl, by decide⟩)

/-- C4 counterexample: the claim says the stock field may be omitted and
then defaults to 0, but `ProductCreate` declares `stock: int` with no
default, so Pydantic rejects a body missing only the stock field instead
of creating a product with stock 0. -/
theorem c4_counterexample :
    rawNoStock.stock = none ∧ rawNoStock.name.isSome = true ∧
    rawNoStock.description.isSome = true ∧ rawNoStock.price.isSome = true ∧
    createProductEndpoint emptyDB rawNoStock = .error .invalidRequestBody :=
  ⟨rfl, rfl, rfl, rfl, rfl⟩

/-- C4 amended: create product accepts a body exactly when name,
description, price and stock are all present (stock is required, with no
default), and on a well-formed body it returns a new `Product` carrying
the server-assigned identifier and the given field values; the only
error path is a malformed body. -/
theorem c4_create_product (db : DB) (raw : RawProductCreate) :
    ((∃ r, createProductEndpoint db raw = .ok r) ↔
      raw.name.isSome = true ∧ raw.description.isSome = true ∧
      raw.price.isSome = true ∧ raw.stock.isSome = true) ∧
    (∀ pc, parseProductCreate raw = .ok pc →
      createProductEndpoint db raw =
        .ok ({ db with
               products := db.products ++
                 [⟨db.nextProductId, pc.name, pc.description, pc.price, pc.stock⟩]
               nextProductId := db.nextProductId + 1 },
             ⟨db.nextProductId, pc.name, pc.description, pc.price, pc.stock⟩)) := by
  obtain ⟨n, d, pr, st⟩ := raw
  cases n <;> cases d <;> cases pr <;> cases st <;>
    simp [createProductEndpoint, parseProductCreate, createProduct, Except.map]

theorem c4_witness :
    parseProductCreate rawFull = .ok ⟨"Widget", "A widget", 999, 3⟩ ∧
    createProductEndpoint emptyDB rawFull =
      .ok ({ emptyDB with
             products := [⟨1, "Widget", "A widget", 999, 3⟩]
             nextProductId := 2 },
           ⟨1, "Widget", "A widget", 999, 3⟩) :=
  ⟨rfl, (c4_create_product emptyDB rawFull).2 ⟨"Widget", "A widget", 999, 3⟩ rfl⟩

/-- C6: an order-creation request with an empty item list succeeds and
persists an order with zero items, default status processing and the
server timestamp, and no stock changes. -/
theorem c6_empty_order (now : Nat) (db : DB)
    (hfresh : ∀ it ∈ db.orderItems, it.orderId ≠ db.nextOrderId) :
    ∃ db2 o, createOrder now db [] = .ok (db2, o) ∧
      o.status = .processing ∧ o.createdAt = now ∧ o.id = db.nextOrderId ∧
      o ∈ db2.orders ∧ itemsOf db2.orderItems o.id = [] ∧
      db2.products = db.products := by
  refine ⟨_, ⟨db.nextOrderId, now, .processing⟩, rfl, rfl, rfl, rfl, ?_, ?_, rfl⟩
  · simp
  · simp only [itemsOf, List.append_nil]
    rw [List.filter_eq_nil_iff]
    intro it hit
    simpa using hfresh it hit

theorem c6_witness :
    ∃ db2 o, createOrder 5 emptyDB [] = .ok (db2, o) ∧
      o.status = .processing ∧ o.createdAt = 5 ∧ o.id = emptyDB.nextOrderId ∧
      o ∈ db2.orders ∧ itemsOf db2.orderItems o.id = [] ∧
      db2.products = emptyDB.products :=
  c6_empty_order 5 emptyDB (by simp [emptyDB])

/-- C7: update product overwrites all four fields of the identified
product unconditionally, keeping its identifier, and returns the updated
row, leaving every other product and the other tables unchanged; when no
product has the identifier it fails with the 404 and the store is
unchanged. -/
theorem c7_update_product (db : DB) (pid : Nat) (pc : ProductCreate) :
    (getProduct db.products pid = none →
      updateProduct db pid pc = .error (.notFound "Product not found") ∧
      productStateAfter db pid pc = db) ∧
    (∀ p, getProduct db.products pid = some p →
      ∃ db2, updateProduct db pid pc =
          .ok (db2, ⟨p.id, pc.name, pc.description, pc.price, pc.stock⟩) ∧
        getProduct db2.products pid =
          some ⟨p.id, pc.name, pc.description, pc.price, pc.stock⟩ ∧
        (∀ pid2, pid2 ≠ pid → getProduct db2.products pid2 = getProduct db.products pid2) ∧
        db2.orders = db.orders ∧ db2.orderItems = db.orderItems) := by
  constructor
  · intro hn
    constructor
    · simp [updateProduct, hn]
    · simp [productStateAfter, updateProduct, hn]
  · intro p hp
    refine ⟨{ db with products := setProductFields db.products pid pc }, ?_, ?_, ?_, rfl, rfl⟩
    · simp [updateProduct, hp]
    · simp [getProduct_setProductFields_eq, hp]
    · intro pid2 h2
      exact getProduct_setProductFields_ne db.products pid pc pid2 h2

/-- C5: a status update fails with the 404 when no order has the
identifier; the request schema accepts exactly the three enum member
values and rejects every other string; and for an existing order the
update succeeds for every target status, whatever the current status —
no transition restriction. -/
theorem c5_update_order_status (db : DB) (oid : Nat) (st : OrderStatus) :
    (∀ s : String, (statusOfString s).isSome = true ↔
      s = OrderStatus.processing.value ∨ s = OrderStatus.sent.value ∨
        s = OrderStatus.delivered.value) ∧
    (getOrder db.orders oid = none →
      updateOrderStatus db oid st = .error (.notFound "Order not found")) ∧
    (∀ o, getOrder db.orders oid = some o →
      ∃ db2, updateOrderStatus db oid st = .ok (db2, { o with status := st })) := by
  refine ⟨?_, ?_, ?_⟩
  · intro s
    simp only [statusOfString, OrderStatus.value]
    split_ifs with h1 h2 h3 <;> simp_all
  · intro hn
    simp [updateOrderStatus, hn]
  · intro o ho
    exact ⟨{ db with orders := setStatus db.orders oid st }, by simp [updateOrderStatus, ho]⟩

theorem c5_witness :
    (statusOfString "доставлен").isSome = true ∧
    (statusOfString "shipped").isSome = false ∧
    updateOrderStatus emptyDB 1 .sent = .error (.notFound "Order not found") ∧
    ∃ db2, updateOrderStatus dbOneOrder 1 .delivered = .ok (db2, ⟨1, 0, .delivered⟩) := by
  refine ⟨((c5_update_order_status dbOneOrder 1 .delivered).1 "доставлен").mpr
      (Or.inr (Or.inr rfl)), rfl, ?_, ?_⟩
  · exact (c5_update_order_status emptyDB 1 .sent).2.1 rfl
  · exact (c5_update_order_status dbOneOrder 1 .delivered).2.2 ⟨1, 0, .processing⟩ rfl

/-- C10: a successful status update changes only the status of the
identified order: the products table and the order-items table are
unchanged, the orders table keeps its length, every order keeps its
identifier and creation timestamp, and every order whose identifier
differs from the requested one is unchanged entirely. -/
theorem c10_status_update_frame (db : DB) (oid : Nat) (st : OrderStatus) (db2 : DB) (o : Order)
    (h : updateOrderStatus db oid st = .ok (db2, o)) :
    db2.products = db.products ∧ db2.orderItems = db.orderItems ∧
    db2.orders.length = db.orders.length ∧
    ∀ (i : Nat) (o1 : Order), db.orders[i]? = some o1 →
      ∃ o2, db2.orders[i]? = some o2 ∧ o2.id = o1.id ∧ o2.createdAt = o1.createdAt ∧
        (o1.id ≠ oid → o2 = o1) := by
  unfold updateOrderStatus at h
  cases hg : getOrder db.orders oid with
  | none => rw [hg] at h; exact absurd h (by simp)
  | some o1 =>
    rw [hg] at h
    have hdb : db2 = { db with orders := setStatus db.orders oid st } := by
      have := congrArg (fun r => match r with
        | Except.ok (d, _) => d
        | Except.error _ => db2) h
      simpa using this.symm
    subst hdb
    refine ⟨rfl, rfl, ?_, ?_⟩
    · show (setStatus db.orders oid st).length = db.orders.length
      clear h hg
      induction db.orders with
      | nil => rfl
      | cons a rest ih =>
        by_cases ha : a.id = oid <;> simp [setStatus, ha, ih]
    · exact fun i o1 h1 => setStatus_get oid st db.orders i o1 h1

theorem c10_witness :
    ∃ db2 o, updateOrderStatus dbOneOrder 1 .sent = .ok (db2, o) ∧
      db2.products = dbOneOrder.products ∧ db2.orderItems = dbOneOrder.orderItems ∧
      db2.orders.length = dbOneOrder.orders.length := by
  have h := c10_status_update_frame dbOneOrder 1 .sent
    { dbOneOrder with orders := [⟨1, 0, .sent⟩] } ⟨1, 0, .sent⟩ rfl
  exact ⟨{ dbOneOrder with orders := [⟨1, 0, .sent⟩] }, ⟨1, 0, .sent⟩, rfl,
    h.1, h.2.1, h.2.2.1⟩

theorem applyItems_nil (oid : Nat) (ps : List Product) (nid : Nat) :
    applyItems oid ps nid [] = .ok (ps, [], nid) := rfl

theorem applyItems_cons (oid : Nat) (ps : List Product) (nid : Nat) (it : ItemReq)
    (rest : List ItemReq) :
    applyItems oid ps nid (it :: rest) =
      match checkItem ps it with
      | .error e => .error e
      | .ok _ =>
        match applyItems oid (decStock ps it.productId it.quantity) (nid + 1) rest with
        | .error e => .error e
        | .ok (ps2, its, nid2) =>
          .ok (ps2, ⟨nid, oid, it.productId, it.quantity⟩ :: its, nid2) := rfl

theorem checkItem_error (ps : List Product) (it : ItemReq) (e : ApiError)
    (h : checkItem ps it = .error e) : e = insufficientStock := by
  unfold checkItem at h
  cases hg : getProduct ps it.productId with
  | none => rw [hg] at h; exact (Except.error.inj h).symm
  | some p =>
    rw [hg] at h
    have h2 : (if p.stock < it.quantity then (Except.error insufficientStock : Except ApiError Product)
        else .ok p) = .error e := h
    by_cases hs : p.stock < it.quantity
    · rw [if_pos hs] at h2; exact (Except.error.inj h2).symm
    · rw [if_neg hs] at h2; cases h2

theorem applyItems_frame (oid : Nat) :
    ∀ (items : List ItemReq) (ps : List Product) (nid pid : Nat) (ps2 : List Product)
      (its : List OrderItem) (nid2 : Nat),
      (∀ it ∈ items, it.productId ≠ pid) →
      applyItems oid ps nid items = .ok (ps2, its, nid2) →
      getProduct ps2 pid = getProduct ps pid := by
  intro items
  induction items with
  | nil =>
    intro ps nid pid ps2 its nid2 _ h
    rw [applyItems_nil] at h
    simp only [Except.ok.injEq, Prod.mk.injEq] at h
    obtain ⟨rfl, -, -⟩ := h
    rfl
  | cons it rest ih =>
    intro ps nid pid ps2 its nid2 hne h
    rw [applyItems_cons] at h
    cases hc : checkItem ps it with
    | error e => rw [hc] at h; cases h
    | ok pr =>
      rw [hc] at h
      cases happ : applyItems oid (decStock ps it.productId it.quantity) (nid + 1) rest with
      | error e => rw [happ] at h; cases h
      | ok r =>
        obtain ⟨ps3, its3, nid3⟩ := r
        rw [happ] at h
        simp only [Except.ok.injEq, Prod.mk.injEq] at h
        obtain ⟨rfl, -, -⟩ := h
        rw [ih _ _ pid _ _ _ (fun it2 h2 => hne it2 (List.mem_cons_of_mem _ h2)) happ]
        exact getProduct_decStock_ne _ _ _ _ (Ne.symm (hne it (List.mem_cons_self _ _)))

theorem applyItems_success (oid : Nat) :
    ∀ (items : List ItemReq) (ps : List Product) (nid : Nat),
      (items.map ItemReq.productId).Nodup →
      (∀ it ∈ items, ∃ p, getProduct ps it.productId = some p ∧ it.quantity ≤ p.stock) →
      ∃ ps2 its nid2, applyItems oid ps nid items = .ok (ps2, its, nid2) ∧
        its.length = items.length ∧
        ∀ it ∈ items, ∀ p, getProduct ps it.productId = some p →
          getProduct ps2 it.productId = some { p with stock := p.stock - it.quantity } := by
  intro items
  induction items with
  | nil =>
    intro ps nid _ _
    exact ⟨ps, [], nid, rfl, rfl, by simp⟩
  | cons it rest ih =>
    intro ps nid hnd hok
    obtain ⟨p, hp, hq⟩ := hok it (List.mem_cons_self _ _)
    have hcheck : checkItem ps it = .ok p := by
      simp [checkItem, hp, not_lt.mpr hq]
    have hnotin : it.productId ∉ rest.map ItemReq.productId :=
      (List.nodup_cons.mp (by simpa using hnd)).1
    have hne : ∀ it2 ∈ rest, it2.productId ≠ it.productId := by
      intro it2 h2 hc
      exact hnotin (hc ▸ List.mem_map_of_mem ItemReq.productId h2)
    have hnd2 : (rest.map ItemReq.productId).Nodup :=
      (List.nodup_cons.mp (by simpa using hnd)).2
    have hok2 : ∀ it2 ∈ rest,
        ∃ p2, getProduct (decStock ps it.productId it.quantity) it2.productId = some p2 ∧
          it2.quantity ≤ p2.stock := by
      intro it2 h2
      obtain ⟨p2, hp2, hq2⟩ := hok it2 (List.mem_cons_of_mem _ h2)
      exact ⟨p2, by rw [getProduct_decStock_ne _ _ _ _ (hne it2 h2)]; exact hp2, hq2⟩
    obtain ⟨ps2, its, nid2, happ, hlen, hstock⟩ :=
      ih (decStock ps it.productId it.quantity) (nid + 1) hnd2 hok2
    refine ⟨ps2, ⟨nid, oid, it.productId, it.quantity⟩ :: its, nid2, ?_, by simp [hlen], ?_⟩
    · rw [applyItems_cons, hcheck, happ]
    · intro it2 h2 p3 hp3
      rcases List.mem_cons.mp h2 with h2 | h2
      · subst h2
        have hframe := applyItems_frame oid rest _ _ it2.productId _ _ _ hne happ
        rw [hframe, getProduct_decStock_eq, hp3]
        rw [hp] at hp3
        cases hp3
        rfl
      · have hp4 : getProduct (decStock ps it.productId it.quantity) it2.productId = some p3 := by
          rw [getProduct_decStock_ne _ _ _ _ (hne it2 h2)]; exact hp3
        exact hstock it2 h2 p3 hp4

/-- C1 counterexample: in store `dbStock5` (one product, id 1, stock 5),
the request [(product 1, quantity 3), (product 1, quantity 3)] satisfies
the claim hypothesis — each item requests at most the current stock of
its product (3 ≤ 5) — yet `create_order` rejects it, because the second
check runs against the running stock 2. -/
theorem c1_counterexample :
    getProduct dbStock5.products 1 = some ⟨1, "Widget", "A widget", 999, 5⟩ ∧
    (∀ it ∈ ([⟨1, 3⟩, ⟨1, 3⟩] : List ItemReq), it.productId = 1 ∧ it.quantity ≤ 5) ∧
    createOrder 0 dbStock5 [⟨1, 3⟩, ⟨1, 3⟩] = .error insufficientStock :=
  ⟨rfl, by decide, rfl⟩

/-- C1 amended: for every order-creation request whose items reference
pairwise distinct products, where each referenced product exists and the
requested quantity is at most its current stock, the operation succeeds,
the persisted order-item count equals the request item count, and the
stock of each referenced product decreases by exactly the requested
quantity. -/
theorem c1_order_success (now : Nat) (db : DB) (items : List ItemReq)
    (hnd : (items.map ItemReq.productId).Nodup)
    (hok : ∀ it ∈ items, ∃ p, getProduct db.products it.productId = some p ∧
      it.quantity ≤ p.stock) :
    ∃ db2 o, createOrder now db items = .ok (db2, o) ∧
      db2.orderItems.length = db.orderItems.length + items.length ∧
      ∀ it ∈ items, ∀ p, getProduct db.products it.productId = some p →
        getProduct db2.products it.productId = some { p with stock := p.stock - it.quantity } := by
  obtain ⟨ps2, its, nid2, happ, hlen, hstock⟩ :=
    applyItems_success db.nextOrderId items db.products db.nextOrderItemId hnd hok
  refine ⟨{ db with
      products := ps2
      orders := db.orders ++ [⟨db.nextOrderId, now, .processing⟩]
      orderItems := db.orderItems ++ its
      nextOrderId := db.nextOrderId + 1
      nextOrderItemId := nid2 }, ⟨db.nextOrderId, now, .processing⟩, ?_, ?_, ?_⟩
  · simp only [createOrder]
    rw [happ]
  · simp [hlen]
  · exact hstock

theorem c1_witness :
    ∃ db2 o, createOrder 0 dbTwo [⟨1, 3⟩, ⟨2, 4⟩] = .ok (db2, o) ∧
      db2.orderItems.length = dbTwo.orderItems.length + 2 := by
  have hok : ∀ it ∈ ([⟨1, 3⟩, ⟨2, 4⟩] : List ItemReq), ∃ p,
      getProduct dbTwo.products it.productId = some p ∧ it.quantity ≤ p.stock := by
    intro it hit
    rcases List.mem_cons.mp hit with rfl | hit2
    · exact ⟨⟨1, "Widget", "A widget", 999, 5⟩, rfl, by decide⟩
    rcases List.mem_cons.mp hit2 with rfl | hit3
    · exact ⟨⟨2, "Gadget", "A gadget", 500, 4⟩, rfl, by decide⟩
    cases hit3
  obtain ⟨db2, o, h1, h2, -⟩ := c1_order_success 0 dbTwo [⟨1, 3⟩, ⟨2, 4⟩] (by decide) hok
  exact ⟨db2, o, h1, h2⟩

theorem c7_witness :
    ∃ db2, updateProduct dbStock5 1 ⟨"New", "New desc", 100, 9⟩ =
        .ok (db2, ⟨1, "New", "New desc", 100, 9⟩) ∧
      getProduct db2.products 1 = some ⟨1, "New", "New desc", 100, 9⟩ ∧
      (∀ pid2, pid2 ≠ 1 → getProduct db2.products pid2 = getProduct dbStock5.products pid2) ∧
      db2.orders = dbStock5.orders ∧ db2.orderItems = dbStock5.orderItems :=
  (c7_update_product dbStock5 1 ⟨"New", "New desc", 100, 9⟩).2
    ⟨1, "Widget", "A widget", 999, 5⟩ rfl

theorem tracks_zero (ps : List Product) : tracks ps (fun _ => 0) ps := by
  intro pid
  cases h : getProduct ps pid <;> simp

theorem tracks_bump (ps0 : List Product) (f : Nat → Int) (ps : List Product)
    (ht : tracks ps0 f ps) (pid : Nat) (q : Int) :
    tracks ps0 (bump f pid q) (decStock ps pid q) := by
  intro x
  by_cases hx : x = pid
  · subst hx
    rw [getProduct_decStock_eq, ht x]
    cases getProduct ps0 x <;> simp [bump, sub_sub]
  · rw [getProduct_decStock_ne _ _ _ _ hx, ht x]
    cases getProduct ps0 x <;> simp [bump, hx]

theorem bump_sumQty (f : Nat → Int) (it0 : ItemReq) (l : List ItemReq) (pid : Nat) :
    bump f it0.productId it0.quantity pid + sumQty l pid = f pid + sumQty (it0 :: l) pid := by
  by_cases h : pid = it0.productId
  · subst h
    simp [bump, sumQty, add_assoc]
  · simp [bump, sumQty, h, Ne.symm h]

theorem applyItems_reject (oid : Nat) :
    ∀ (items : List ItemReq) (ps : List Product) (f : Nat → Int) (nid : Nat)
      (ps0 : List Product),
      tracks ps0 f ps →
      (∀ pid, 0 ≤ f pid) →
      (∀ it ∈ items, 0 ≤ it.quantity) →
      (∃ it ∈ items, getProduct ps0 it.productId = none ∨
          ∃ p, getProduct ps0 it.productId = some p ∧ p.stock < it.quantity) →
      applyItems oid ps nid items = .error insufficientStock := by
  intro items
  induction items with
  | nil =>
    intro ps f nid ps0 _ _ _ hbad
    simp at hbad
  | cons it rest ih =>
    intro ps f nid ps0 ht hf hq hbad
    rw [applyItems_cons]
    cases hc : checkItem ps it with
    | error e =>
      have he := checkItem_error ps it e hc
      subst he
      rfl
    | ok pr =>
      obtain ⟨itb, hmem, hbadb⟩ := hbad
      rcases List.mem_cons.mp hmem with rfl | hmem2
      · exfalso
        rcases hbadb with hbnone | ⟨p0, hb0, hlt⟩
        · have hnone : getProduct ps itb.productId = none := by
            rw [ht itb.productId, hbnone]; rfl
          unfold checkItem at hc
          rw [hnone] at hc
          cases hc
        · have hcur : getProduct ps itb.productId =
              some { p0 with stock := p0.stock - f itb.productId } := by
            rw [ht itb.productId, hb0]; rfl
          have hred : checkItem ps itb =
              if p0.stock - f itb.productId < itb.quantity then .error insufficientStock
              else .ok { p0 with stock := p0.stock - f itb.productId } := by
            unfold checkItem
            rw [hcur]
          rw [hred, if_pos (by have := hf itb.productId; omega)] at hc
          cases hc
      · have hrec := ih (decStock ps it.productId it.quantity)
          (bump f it.productId it.quantity) (nid + 1) ps0
          (tracks_bump ps0 f ps ht it.productId it.quantity)
          (by
            intro pid
            unfold bump
            by_cases h : pid = it.productId
            · rw [if_pos h]
              have h1 := hq it (List.mem_cons_self _ _)
              have h2 := hf pid
              omega
            · rw [if_neg h]
              exact hf pid)
          (fun it2 h2 => hq it2 (List.mem_cons_of_mem _ h2))
          ⟨itb, hmem2, hbadb⟩
        rw [hrec]

/-- C2 counterexample: in store `dbStock2` (one product, id 1, stock 2),
the request [(product 1, quantity -10), (product 1, quantity 5)] contains
an item — the second — whose quantity 5 exceeds the stock 2 of the
product it references, so the claim says the request is rejected with no
stock change; but the code accepts it and the stock becomes 7, because
the first item carries a negative quantity (nothing validates quantities)
and inflates the running stock before the second check. -/
theorem c2_counterexample :
    getProduct dbStock2.products 1 = some ⟨1, "Widget", "A widget", 999, 2⟩ ∧
    ([⟨1, -10⟩, ⟨1, 5⟩] : List ItemReq)[1]? = some ⟨1, 5⟩ ∧ ((2 : Int) < 5) ∧
    ∃ db2 o, createOrder 0 dbStock2 [⟨1, -10⟩, ⟨1, 5⟩] = .ok (db2, o) ∧
      getProduct db2.products 1 = some ⟨1, "Widget", "A widget", 999, 7⟩ := by
  exact ⟨rfl, rfl, by decide, _, _, rfl, rfl⟩

/-- C2 amended: for every order-creation request whose quantities are all
non-negative, if at least one item references a nonexistent product or
requests a quantity exceeding the stock that product has at the start of
the request, then the request is rejected with the single 400 error and
the durable state is unchanged — no stock change, no order, no order
items (full rollback), even when earlier items passed the check. -/
theorem c2_reject_rollback (now : Nat) (db : DB) (items : List ItemReq)
    (hq : ∀ it ∈ items, 0 ≤ it.quantity)
    (hbad : ∃ it ∈ items, getProduct db.products it.productId = none ∨
        ∃ p, getProduct db.products it.productId = some p ∧ p.stock < it.quantity) :
    createOrder now db items = .error insufficientStock ∧
    orderStateAfter now db items = db := by
  have h := applyItems_reject db.nextOrderId items db.products (fun _ => 0)
    db.nextOrderItemId db.products (tracks_zero db.products) (fun _ => le_refl 0) hq hbad
  constructor
  · simp only [createOrder]
    rw [h]
  · simp only [orderStateAfter, createOrder]
    rw [h]

theorem c2_witness :
    createOrder 0 dbStock2 [⟨1, 5⟩] = .error insufficientStock ∧
    orderStateAfter 0 dbStock2 [⟨1, 5⟩] = dbStock2 :=
  c2_reject_rollback 0 dbStock2 [⟨1, 5⟩] (by decide)
    ⟨⟨1, 5⟩, List.mem_cons_self _ _,
      Or.inr ⟨⟨1, "Widget", "A widget", 999, 2⟩, rfl, by decide⟩⟩

theorem applyItems_ok_iff (oid : Nat) :
    ∀ (items : List ItemReq) (ps : List Product) (f : Nat → Int) (nid : Nat)
      (ps0 : List Product),
      tracks ps0 f ps →
      (∀ it ∈ items, (getProduct ps0 it.productId).isSome = true) →
      ((∃ r, applyItems oid ps nid items = .ok r) ↔
        ∀ pre it post, items = pre ++ it :: post →
          ∀ p, getProduct ps0 it.productId = some p →
            f it.productId + sumQty (pre ++ [it]) it.productId ≤ p.stock) := by
  intro items
  induction items with
  | nil =>
    intro ps f nid ps0 _ _
    constructor
    · intro _ pre it post heq
      exact absurd heq (by simp)
    · intro _
      exact ⟨(ps, [], nid), rfl⟩
  | cons it0 rest ih =>
    intro ps f nid ps0 ht hex
    obtain ⟨p0, hp0⟩ := Option.isSome_iff_exists.mp (hex it0 (List.mem_cons_self _ _))
    have hcur : getProduct ps it0.productId =
        some { p0 with stock := p0.stock - f it0.productId } := by
      rw [ht it0.productId, hp0]; rfl
    have hred : checkItem ps it0 =
        if p0.stock - f it0.productId < it0.quantity then .error insufficientStock
        else .ok { p0 with stock := p0.stock - f it0.productId } := by
      unfold checkItem
      rw [hcur]
    have hiff := ih (decStock ps it0.productId it0.quantity)
      (bump f it0.productId it0.quantity) (nid + 1) ps0
      (tracks_bump ps0 f ps ht it0.productId it0.quantity)
      (fun it h => hex it (List.mem_cons_of_mem _ h))
    by_cases hpass : f it0.productId + it0.quantity ≤ p0.stock
    · have hc : checkItem ps it0 = .ok { p0 with stock := p0.stock - f it0.productId } := by
        rw [hred, if_neg (by omega)]
      constructor
      · rintro ⟨r, hr⟩ pre it post heq p hp
        rw [applyItems_cons, hc] at hr
        have hub : ∃ r2, applyItems oid (decStock ps it0.productId it0.quantity)
            (nid + 1) rest = .ok r2 := by
          cases happ : applyItems oid (decStock ps it0.productId it0.quantity)
              (nid + 1) rest with
          | error e => rw [happ] at hr; cases hr
          | ok r2 => exact ⟨r2, rfl⟩
        have hcond := hiff.mp hub
        cases pre with
        | nil =>
          simp only [List.nil_append, List.cons.injEq] at heq
          obtain ⟨rfl, rfl⟩ := heq
          rw [hp0] at hp
          cases hp
          show f it0.productId + sumQty ([] ++ [it0]) it0.productId ≤ p0.stock
          simpa [sumQty] using hpass
        | cons a pre2 =>
          simp only [List.cons_append, List.cons.injEq] at heq
          obtain ⟨rfl, heq2⟩ := heq
          have h2 := hcond pre2 it post heq2 p hp
          rw [List.cons_append, ← bump_sumQty]
          exact h2
      · intro hcond
        have hcond2 : ∀ pre it post, rest = pre ++ it :: post →
            ∀ p, getProduct ps0 it.productId = some p →
              bump f it0.productId it0.quantity it.productId +
                sumQty (pre ++ [it]) it.productId ≤ p.stock := by
          intro pre it post heq p hp
          have h3 := hcond (it0 :: pre) it post (by rw [heq, List.cons_append]) p hp
          rw [List.cons_append, ← bump_sumQty] at h3
          exact h3
        obtain ⟨r2, h2⟩ := hiff.mpr hcond2
        obtain ⟨ps3, its3, nid3⟩ := r2
        rw [applyItems_cons, hc, h2]
        exact ⟨_, rfl⟩
    · have hc : checkItem ps it0 = .error insufficientStock := by
        rw [hred, if_pos (by omega)]
      constructor
      · rintro ⟨r, hr⟩
        rw [applyItems_cons, hc] at hr
        cases hr
      · intro hcond
        exfalso
        have h0 := hcond [] it0 rest rfl p0 hp0
        simp [sumQty] at h0
        omega

/-- C8: when every item of an order-creation request references an
existing product, the request succeeds if and only if, for every prefix
of the item list, the cumulative quantity requested for the product
referenced at the end of the prefix does not exceed the stock that
product has at the start of the request — each check runs against the
running (already decremented) stock, not the initial stock. -/
theorem c8_running_stock_iff (now : Nat) (db : DB) (items : List ItemReq)
    (hex : ∀ it ∈ items, (getProduct db.products it.productId).isSome = true) :
    (∃ r, createOrder now db items = .ok r) ↔
      ∀ pre it post, items = pre ++ it :: post →
        ∀ p, getProduct db.products it.productId = some p →
          sumQty (pre ++ [it]) it.productId ≤ p.stock := by
  have h := applyItems_ok_iff db.nextOrderId items db.products (fun _ => 0)
    db.nextOrderItemId db.products (tracks_zero db.products) hex
  constructor
  · rintro ⟨r, hr⟩ pre it post heq p hp
    have hub : ∃ r2, applyItems db.nextOrderId db.products db.nextOrderItemId items
        = .ok r2 := by
      simp only [createOrder] at hr
      cases happ : applyItems db.nextOrderId db.products db.nextOrderItemId items with
      | error e => rw [happ] at hr; cases hr
      | ok r2 => exact ⟨r2, rfl⟩
    have h2 := h.mp hub pre it post heq p hp
    simpa using h2
  · intro hcond
    obtain ⟨r2, h2⟩ := h.mpr
      (fun pre it post heq p hp => by simpa using hcond pre it post heq p hp)
    obtain ⟨ps3, its3, nid3⟩ := r2
    exact ⟨({ db with
        products := ps3
        orders := db.orders ++ [⟨db.nextOrderId, now, .processing⟩]
        orderItems := db.orderItems ++ its3
        nextOrderId := db.nextOrderId + 1
        nextOrderItemId := nid3 }, ⟨db.nextOrderId, now, .processing⟩),
      by simp only [createOrder]; rw [h2]⟩

theorem c8_witness :
    sumQty ([⟨1, 3⟩, ⟨1, 2⟩] : List ItemReq) 1 ≤ (5 : Int) :=
  (c8_running_stock_iff 0 dbStock5 [⟨1, 3⟩, ⟨1, 2⟩] (by decide)).mp
    ⟨_, rfl⟩ [⟨1, 3⟩] ⟨1, 2⟩ [] rfl ⟨1, "Widget", "A widget", 999, 5⟩ rfl

theorem applyItems_nonneg (oid pid : Nat) :
    ∀ (items : List ItemReq) (ps : List Product) (nid : Nat) (ps2 : List Product)
      (its : List OrderItem) (nid2 : Nat),
      applyItems oid ps nid items = .ok (ps2, its, nid2) →
      (∀ p, getProduct ps pid = some p → 0 ≤ p.stock) →
      ∀ p, getProduct ps2 pid = some p → 0 ≤ p.stock := by
  intro items
  induction items with
  | nil =>
    intro ps nid ps2 its nid2 h h0
    rw [applyItems_nil] at h
    simp only [Except.ok.injEq, Prod.mk.injEq] at h
    obtain ⟨rfl, -, -⟩ := h
    exact h0
  | cons it rest ih =>
    intro ps nid ps2 its nid2 h h0
    rw [applyItems_cons] at h
    cases hc : checkItem ps it with
    | error e => rw [hc] at h; cases h
    | ok pr =>
      rw [hc] at h
      cases happ : applyItems oid (decStock ps it.productId it.quantity) (nid + 1) rest with
      | error e => rw [happ] at h; cases h
      | ok r =>
        obtain ⟨ps3, its3, nid3⟩ := r
        rw [happ] at h
        simp only [Except.ok.injEq, Prod.mk.injEq] at h
        obtain ⟨rfl, -, -⟩ := h
        refine ih _ _ _ _ _ happ ?_
        intro p hp
        by_cases hx : pid = it.productId
        · subst hx
          unfold checkItem at hc
          cases hg : getProduct ps it.productId with
          | none => rw [hg] at hc; cases hc
          | some pr0 =>
            rw [hg] at hc
            have hc2 : (if pr0.stock < it.quantity
                then (Except.error insufficientStock : Except ApiError Product)
                else .ok pr0) = .ok pr := hc
            by_cases hs : pr0.stock < it.quantity
            · rw [if_pos hs] at hc2; cases hc2
            · rw [getProduct_decStock_eq, hg] at hp
              have hp2 : some { pr0 with stock := pr0.stock - it.quantity } = some p := hp
              obtain rfl := Option.some.inj hp2
              show (0 : Int) ≤ pr0.stock - it.quantity
              omega
        · rw [getProduct_decStock_ne _ _ _ _ hx] at hp
          exact h0 p hp

/-- C9: order creation preserves non-negativity of stock: for any product
identifier whose stored product (when present) has non-negative stock
before the request, the stored product after the request — successful or
rejected — still has non-negative stock, for every integer quantity the
request supplies, because each passed check `product.stock < quantity`
guarantees `stock - quantity ≥ 0` at the decrement and a rejected request
leaves the state unchanged. -/
theorem c9_nonneg_preserved (now : Nat) (db : DB) (items : List ItemReq) (pid : Nat)
    (h0 : ∀ p, getProduct db.products pid = some p → 0 ≤ p.stock) :
    ∀ p, getProduct (orderStateAfter now db items).products pid = some p → 0 ≤ p.stock := by
  unfold orderStateAfter
  cases hco : createOrder now db items with
  | error e => exact h0
  | ok r =>
    obtain ⟨db2, o⟩ := r
    show ∀ p, getProduct db2.products pid = some p → 0 ≤ p.stock
    simp only [createOrder] at hco
    cases happ : applyItems db.nextOrderId db.products db.nextOrderItemId items with
    | error e => rw [happ] at hco; cases hco
    | ok r2 =>
      obtain ⟨ps2, its, nid2⟩ := r2
      rw [happ] at hco
      simp only [Except.ok.injEq, Prod.mk.injEq] at hco
      obtain ⟨h1, -⟩ := hco
      intro p hp
      refine applyItems_nonneg db.nextOrderId pid items db.products db.nextOrderItemId
        ps2 its nid2 happ h0 p ?_
      have hdb : db2.products = ps2 := by rw [← h1]
      rwa [hdb] at hp

theorem c9_witness :
    getProduct (orderStateAfter 0 dbStock5 [⟨1, 3⟩]).products 1 =
      some ⟨1, "Widget", "A widget", 999, 2⟩ ∧ (0 : Int) ≤ 2 := by
  refine ⟨rfl, ?_⟩
  exact c9_nonneg_preserved 0 dbStock5 [⟨1, 3⟩] 1
    (fun p hp => by cases hp; decide) ⟨1, "Widget", "A widget", 999, 2⟩ rfl

end InventoryAPI
